import Mathlib

/-!
# Verification of the public-transit-client journey/connection data model

Shallow embedding of `src/public_transit_client/model.py` (the journey data
model: Stop, Coordinate, StopTime, Trip, Leg, Connection and their derived
properties), together with theorems settling the claims about it.

Modelling conventions:
* `datetime` values are modelled at one-second resolution as `Int` (seconds
  since an arbitrary epoch).  Python's `(a - b).seconds` — the normalized
  `seconds` field of a `timedelta`, i.e. the nonnegative sub-day remainder of
  the floor-division of the delta by one day — is embedded as
  `(a - b).emod 86400` (`Int.emod` is nonnegative for a positive modulus,
  matching Python's floor-mod).
* Latitude/longitude are carried as `Int` stand-ins: the claims under study
  use coordinates only through structural equality of `Stop` values
  (pydantic `BaseModel.__eq__` compares all fields), never through float
  arithmetic, so only decidable equality of the coordinate payload matters.
* pydantic model construction: `Connection`'s `_legs_not_empty` validator and
  `Trip`'s `_set_stop_times_not_none` (`mode="before"`) validator are embedded
  as explicit constructor functions returning `Except String _`.  For a
  required pydantic-v2 field, a `mode="before"` validator runs only when the
  field is present in the payload; an absent required field fails with a
  missing-field validation error before any validator runs.
* Python `x == None` on a pydantic model is `False`; comparing a `StopTime`'s
  stop against an optional `Leg.from_stop` is embedded as equality with
  `some` (`stopHit`).
* `Connection` accessors that index `legs[0]` / `legs[-1]` (total in Python
  because the validator guarantees non-emptiness) are embedded with
  `List.head?` / `List.getLast?`, returning `Option`.
-/

namespace PTC

/-- Decidable equality for `Except`, used to evaluate fallible results on
concrete inputs. -/
instance {ε α : Type} [DecidableEq ε] [DecidableEq α] : DecidableEq (Except ε α) := fun a b =>
  match a, b with
  | .error e, .error f =>
    if h : e = f then .isTrue (by rw [h]) else .isFalse (by intro hc; cases hc; exact h rfl)
  | .ok x, .ok y =>
    if h : x = y then .isTrue (by rw [h]) else .isFalse (by intro hc; cases hc; exact h rfl)
  | .error _, .ok _ => .isFalse (by intro hc; cases hc)
  | .ok _, .error _ => .isFalse (by intro hc; cases hc)

/-- Enum `TransportMode` from model.py. -/
inductive TransportMode where
  | BUS | TRAM | RAIL | SHIP | SUBWAY | AERIAL_LIFT | FUNICULAR
deriving DecidableEq, Repr

/-- Enum `LegType` from model.py. -/
inductive LegType where
  | WALK | ROUTE
deriving DecidableEq, Repr

/-- Model of `Coordinate`: latitude/longitude pair (floats in the source; carried here
as `Int` stand-ins since the claims use coordinates only via equality). -/
structure Coordinate where
  latitude : Int
  longitude : Int
deriving DecidableEq, Repr

/-- Model of `Stop`: id, name and coordinate. -/
structure Stop where
  id : String
  name : String
  coordinate : Coordinate
deriving DecidableEq, Repr

/-- Model of `Route`: route metadata attached to a trip. -/
structure Route where
  id : String
  name : String
  short_name : String
  transport_mode : TransportMode
  transport_mode_description : String
deriving DecidableEq, Repr

/-- Model of `StopTime`: a stop with its arrival and departure time. -/
structure StopTime where
  stop : Stop
  arrival_time : Int
  departure_time : Int
deriving DecidableEq, Repr

/-- Model of `Trip`: head sign, route, ordered stop times, accessibility flags. -/
structure Trip where
  head_sign : String
  route : Route
  stop_times : List StopTime
  bikes_allowed : Bool
  wheelchair_accessible : Bool
deriving DecidableEq, Repr

/-- Model of `Leg`: one walking or route segment of a journey. -/
structure Leg where
  from_coordinate : Coordinate
  from_stop : Option Stop
  to_coordinate : Coordinate
  to_stop : Option Stop
  type : LegType
  departure_time : Int
  arrival_time : Int
  trip : Option Trip
deriving DecidableEq, Repr

/-- Embeds `Leg.duration`: `(self.arrival_time - self.departure_time).seconds`, the
normalized `seconds` field of the Python timedelta (sub-day remainder). -/
def Leg.duration (leg : Leg) : Int :=
  (leg.arrival_time - leg.departure_time).emod 86400

/-- Embeds `Leg.is_walk`: `self.type == LegType.WALK`. -/
def Leg.is_walk (leg : Leg) : Bool :=
  leg.type = LegType.WALK

/-- Embeds `Leg.is_route`: `self.type == LegType.ROUTE`. -/
def Leg.is_route (leg : Leg) : Bool :=
  leg.type = LegType.ROUTE

/-- The comparison `stop_time.stop == s` performed inside `Leg.num_stops`,
where `s` is the optional `from_stop`/`to_stop`: a pydantic model compares
structurally, and comparing against `None` is `False`. -/
def stopHit (s : Option Stop) (st : StopTime) : Bool :=
  s = some st.stop

/-- The scan loop of `Leg.num_stops`: walk `stop_times` with index `i`,
carrying the last recorded `from_stop_index` in `a`; on a `from_stop` match
overwrite `a` with the current index; on a `to_stop` match return both indices
immediately (the `break`).  Returns `(from_stop_index, to_stop_index)`. -/
def scanStops (fromS toS : Option Stop) : List StopTime → Nat → Option Nat → Option Nat × Option Nat
  | [], _, a => (a, none)
  | st :: rest, i, a =>
    let a' := if stopHit fromS st then some i else a
    if stopHit toS st then (a', some i)
    else scanStops fromS toS rest (i + 1) a'

/-- Embeds `Leg.num_stops`: returns 0 when `trip is None` or the leg is not a route
leg; otherwise scans the trip's stop times and returns
`to_stop_index - from_stop_index`, raising `ValueError` (embedded as
`Except.error`) when either index was not recorded. -/
def Leg.num_stops (leg : Leg) : Except String Int :=
  match leg.trip with
  | none => .ok 0
  | some tr =>
    if leg.is_route = false then .ok 0
    else
      match scanStops leg.from_stop leg.to_stop tr.stop_times 0 none with
      | (some f, some t) => .ok ((t : Int) - (f : Int))
      | _ => .error "from_stop or to_stop not found in trip"

/-- Model of `Connection`: a journey as an ordered sequence of legs. -/
structure Connection where
  legs : List Leg
deriving DecidableEq, Repr

/-- Constructing a `Connection`: the `_legs_not_empty` field validator raises
`ValueError("legs must not be empty")` on an empty list and otherwise returns
the list unchanged. -/
def mkConnection (legs : List Leg) : Except String Connection :=
  if legs = [] then .error "legs must not be empty" else .ok ⟨legs⟩

/-- Embeds `Connection.first_leg` (`self.legs[0]`; total in Python because validated
connections are non-empty). -/
def Connection.first_leg (c : Connection) : Option Leg :=
  c.legs.head?

/-- Embeds `Connection.last_leg` (`self.legs[-1]`). -/
def Connection.last_leg (c : Connection) : Option Leg :=
  c.legs.getLast?

/-- Embeds `Connection.first_route_leg`: first leg with `is_route`, else `None`. -/
def Connection.first_route_leg (c : Connection) : Option Leg :=
  c.legs.find? (fun l => l.is_route)

/-- Embeds `Connection.last_route_leg`: iterates `reversed(self.legs)` and returns
the first leg with `is_route`, else `None`. -/
def Connection.last_route_leg (c : Connection) : Option Leg :=
  c.legs.reverse.find? (fun l => l.is_route)

/-- Embeds `Connection.first_stop`: `first_route_leg.from_stop if first_route_leg
else None`. -/
def Connection.first_stop (c : Connection) : Option Stop :=
  c.first_route_leg.bind (fun l => l.from_stop)

/-- Embeds `Connection.last_stop`: `last_route_leg.to_stop if last_route_leg else
None`. -/
def Connection.last_stop (c : Connection) : Option Stop :=
  c.last_route_leg.bind (fun l => l.to_stop)

/-- Embeds `Connection.departure_time`: departure time of the first leg. -/
def Connection.departure_time (c : Connection) : Option Int :=
  c.first_leg.map (fun l => l.departure_time)

/-- Embeds `Connection.arrival_time`: arrival time of the last leg. -/
def Connection.arrival_time (c : Connection) : Option Int :=
  c.last_leg.map (fun l => l.arrival_time)

/-- Embeds `Connection.duration`: `(self.arrival_time - self.departure_time).seconds`
with the same timedelta-seconds semantics as `Leg.duration`. -/
def Connection.duration (c : Connection) : Option Int :=
  match c.departure_time, c.arrival_time with
  | some dep, some arr => some ((arr - dep).emod 86400)
  | _, _ => none

/-- Embeds `Connection.num_transfers`: `sum(1 for leg in self.legs if leg.is_route) - 1`. -/
def Connection.num_transfers (c : Connection) : Int :=
  (c.legs.countP (fun l => l.is_route) : Int) - 1

/-- Embeds `itertools.pairwise`: the list of adjacent pairs of a list. -/
def pairwiseList {α : Type} (l : List α) : List (α × α) :=
  l.zip l.tail

/-- Embeds `Connection.num_same_station_transfers`: count of adjacent leg pairs in
which both legs are route legs. -/
def Connection.num_same_station_transfers (c : Connection) : Int :=
  ((pairwiseList c.legs).countP (fun p => p.1.is_route && p.2.is_route) : Int)

/-- Constructing a `Trip` from a payload, focused on the `stopTimes` field.
The field is required with a `mode="before"` validator `v or []`:
`none` models an absent `stopTimes` key (pydantic raises a missing-field
validation error before any validator runs), `some none` models an explicit
JSON `null` (normalized to the empty list by the validator), and
`some (some l)` models a present list. -/
def mkTrip (head_sign : String) (route : Route)
    (stopTimesField : Option (Option (List StopTime)))
    (bikes_allowed wheelchair_accessible : Bool) : Except String Trip :=
  match stopTimesField with
  | none => .error "Field required"
  | some v => .ok ⟨head_sign, route, v.getD [], bikes_allowed, wheelchair_accessible⟩

/-- Follows the CLAIM's words, not the source: `num_stops` computed as
(index of the first occurrence of `to_stop`) minus (index of the first
occurrence of `from_stop` at or before it).  Used only to compare the claimed
behavior against the source's `Leg.num_stops`. -/
def numStopsSpecFirst (leg : Leg) : Except String Int :=
  match leg.trip with
  | none => .ok 0
  | some tr =>
    if leg.is_route = false then .ok 0
    else
      match tr.stop_times.findIdx? (stopHit leg.to_stop) with
      | none => .error "from_stop or to_stop not found in trip"
      | some t =>
        match (tr.stop_times.take (t + 1)).findIdx? (stopHit leg.from_stop) with
        | none => .error "from_stop or to_stop not found in trip"
        | some f => .ok ((t : Int) - (f : Int))

/-- Index of the first element of `l` satisfying `p` (specification helper
for reasoning about the `num_stops` scan). -/
def firstHit (p : StopTime → Bool) : List StopTime → Option Nat
  | [] => none
  | st :: rest => if p st then some 0 else (firstHit p rest).map (· + 1)

/-- Index of the last element of `l` satisfying `p` (specification helper). -/
def lastHit (p : StopTime → Bool) : List StopTime → Option Nat
  | [] => none
  | st :: rest =>
    match lastHit p rest with
    | some j => some (j + 1)
    | none => if p st then some 0 else none

/-! ## Concrete fixtures -/

/-- A fixed coordinate used by the concrete fixtures. -/
def coord0 : Coordinate := ⟨0, 0⟩

/-- Concrete stop A. -/
def stopA : Stop := ⟨"A", "Stop A", coord0⟩

/-- Concrete stop B. -/
def stopB : Stop := ⟨"B", "Stop B", coord0⟩

/-- Concrete stop C. -/
def stopC : Stop := ⟨"C", "Stop C", coord0⟩

/-- A stop time at a given stop (times irrelevant to the claims under study). -/
def stAt (s : Stop) : StopTime := ⟨s, 0, 0⟩

/-- A concrete route. -/
def routeR : Route := ⟨"r1", "Route 1", "R1", TransportMode.BUS, "Bus"⟩

/-- A looped trip visiting A, B, A, C in order: `from_stop = A` occurs twice
before the first occurrence of `to_stop = C`. -/
def tripLoop : Trip := ⟨"loop", routeR, [stAt stopA, stAt stopB, stAt stopA, stAt stopC], false, false⟩

/-- A route leg over `tripLoop` from A to C. -/
def legLoop : Leg :=
  ⟨coord0, some stopA, coord0, some stopC, LegType.ROUTE, 0, 600, some tripLoop⟩

/-- A concrete walking leg (no trip). -/
def legWalk : Leg :=
  ⟨coord0, none, coord0, none, LegType.WALK, 0, 300, none⟩

/-- A concrete route leg from A to B over a straight trip. -/
def tripAB : Trip := ⟨"ab", routeR, [stAt stopA, stAt stopB], false, false⟩

/-- Route leg A to B over `tripAB`. -/
def legAB : Leg :=
  ⟨coord0, some stopA, coord0, some stopB, LegType.ROUTE, 0, 90000, some tripAB⟩

/-- Route leg B to C (same shape, used to build multi-leg connections). -/
def tripBC : Trip := ⟨"bc", routeR, [stAt stopB, stAt stopC], false, false⟩

/-- Route leg B to C over `tripBC`. -/
def legBC : Leg :=
  ⟨coord0, some stopB, coord0, some stopC, LegType.ROUTE, 0, 100, some tripBC⟩

/-- Walk-only connection. -/
def connWalk : Connection := ⟨[legWalk]⟩

/-- Connection with leg pattern [ROUTE, ROUTE, WALK, ROUTE]. -/
def connRRWR : Connection := ⟨[legAB, legBC, legWalk, legAB]⟩

/-- Single-route-leg connection whose only leg departs at 0 and arrives at
90000 (a delta of more than one day). -/
def connAB : Connection := ⟨[legAB]⟩

example : legLoop.num_stops = .ok 1 := by decide
example : numStopsSpecFirst legLoop = .ok 3 := by decide
example : legWalk.num_stops = .ok 0 := by decide
example : connRRWR.num_same_station_transfers = 1 := by decide
example : connWalk.num_transfers = -1 := by decide
example : legAB.duration = 3600 := by decide

/-! ## Characterization of the num_stops scan -/

/-- The scan of `Leg.num_stops` computes: the `to_stop` index is the first
hit of `to_stop` in the list, and the `from_stop` index is the LAST hit of
`from_stop` among the entries scanned (up to and including the first
`to_stop` hit when one exists, the whole list otherwise), falling back to
the incoming accumulator when no `from_stop` hit was scanned. -/
theorem scanStops_eq (fromS toS : Option Stop) (l : List StopTime) :
    ∀ (i : Nat) (a : Option Nat),
    scanStops fromS toS l i a =
      match firstHit (stopHit toS) l with
      | some t =>
        ((match lastHit (stopHit fromS) (l.take (t + 1)) with
          | some f => some (i + f)
          | none => a), some (i + t))
      | none =>
        ((match lastHit (stopHit fromS) l with
          | some f => some (i + f)
          | none => a), none) := by
  induction l with
  | nil => intro i a; rfl
  | cons st rest ih =>
    intro i a
    by_cases hto : stopHit toS st
    · by_cases hfrom : stopHit fromS st <;>
        simp [scanStops, firstHit, lastHit, hto, hfrom]
    · cases hft : firstHit (stopHit toS) rest with
      | none =>
        cases hlt : lastHit (stopHit fromS) rest with
        | none =>
          by_cases hfrom : stopHit fromS st <;>
            simp [scanStops, firstHit, lastHit, hto, hfrom, hft, hlt, ih]
        | some j =>
          simp [scanStops, firstHit, lastHit, hto, hft, hlt, ih, Nat.add_assoc,
            Nat.add_comm 1 j]
      | some t =>
        cases hlt : lastHit (stopHit fromS) (rest.take (t + 1)) with
        | none =>
          by_cases hfrom : stopHit fromS st <;>
            simp [scanStops, firstHit, lastHit, hto, hfrom, hft, hlt, ih,
              List.take_succ_cons, Nat.add_assoc, Nat.add_comm 1 t]
        | some j =>
          simp [scanStops, firstHit, lastHit, hto, hft, hlt, ih,
            List.take_succ_cons, Nat.add_assoc, Nat.add_comm 1 t, Nat.add_comm 1 j]

/-- Closed form of `Leg.num_stops` for a route leg with a trip. -/
theorem num_stops_eq (leg : Leg) (tr : Trip) (htr : leg.trip = some tr)
    (hr : leg.is_route = true) :
    leg.num_stops =
      match firstHit (stopHit leg.to_stop) tr.stop_times with
      | some t =>
        match lastHit (stopHit leg.from_stop) (tr.stop_times.take (t + 1)) with
        | some f => .ok ((t : Int) - (f : Int))
        | none => .error "from_stop or to_stop not found in trip"
      | none => .error "from_stop or to_stop not found in trip" := by
  have h := scanStops_eq leg.from_stop leg.to_stop tr.stop_times 0 none
  unfold Leg.num_stops
  rw [htr]
  cases hft : firstHit (stopHit leg.to_stop) tr.stop_times with
  | none =>
    rw [hft] at h
    simp only at h
    cases hlt : lastHit (stopHit leg.from_stop) tr.stop_times with
    | none => rw [hlt] at h; simp [hr, h, hft]
    | some f => rw [hlt] at h; simp [hr, h, hft]
  | some t =>
    rw [hft] at h
    simp only at h
    cases hlt : lastHit (stopHit leg.from_stop) (tr.stop_times.take (t + 1)) with
    | none => rw [hlt] at h; simp [hr, h, hft, hlt]
    | some f => rw [hlt] at h; simp [hr, h, hft, hlt]

/-- An index query on a list in which no element satisfies `p` never hits. -/
theorem any_false_of_all_false {p : StopTime → Bool} {l : List StopTime}
    (h : ∀ st ∈ l, p st = false) (j : Nat) : (l[j]?).any p = false := by
  cases hx : l[j]? with
  | none => rfl
  | some x =>
    have hm : x ∈ l := by
      rcases List.getElem?_eq_some.mp hx with ⟨hj, rfl⟩
      exact List.getElem_mem hj
    simp [Option.any, h x hm]

/-- Helper: `firstHit` is `none` exactly when no element satisfies `p`. -/
theorem firstHit_none_iff (p : StopTime → Bool) (l : List StopTime) :
    firstHit p l = none ↔ ∀ st ∈ l, p st = false := by
  induction l with
  | nil => simp [firstHit]
  | cons st rest ih =>
    by_cases hp : p st <;> simp [firstHit, hp, ih]

/-- Helper: `firstHit p l = some t` means: the element at `t` satisfies `p` and no
earlier element does. -/
theorem firstHit_bounds {p : StopTime → Bool} {l : List StopTime} {t : Nat}
    (h : firstHit p l = some t) :
    (l[t]?).any p = true ∧ ∀ j < t, (l[j]?).any p = false := by
  induction l generalizing t with
  | nil => simp [firstHit] at h
  | cons st rest ih =>
    by_cases hp : p st
    · simp [firstHit, hp] at h
      subst h
      simp [Option.any, hp]
    · simp [firstHit, hp] at h
      rcases h with ⟨t', ht', rfl⟩
      rcases ih ht' with ⟨h1, h2⟩
      refine ⟨by simpa using h1, ?_⟩
      intro j hj
      cases j with
      | zero => simp [Option.any, hp]
      | succ j' => simpa using h2 j' (by omega)

/-- Converse of `firstHit_bounds`. -/
theorem firstHit_intro {p : StopTime → Bool} {l : List StopTime} {t : Nat}
    (h1 : (l[t]?).any p = true) (h2 : ∀ j < t, (l[j]?).any p = false) :
    firstHit p l = some t := by
  induction l generalizing t with
  | nil => simp [Option.any] at h1
  | cons st rest ih =>
    cases t with
    | zero =>
      simp [Option.any] at h1
      simp [firstHit, h1]
    | succ t' =>
      have h0 : p st = false := by simpa [Option.any] using h2 0 (by omega)
      have := ih (by simpa using h1) (fun j hj => by simpa using h2 (j + 1) (by omega))
      simp [firstHit, h0, this]

/-- Helper: `lastHit` is `none` exactly when no element satisfies `p`. -/
theorem lastHit_none_iff (p : StopTime → Bool) (l : List StopTime) :
    lastHit p l = none ↔ ∀ st ∈ l, p st = false := by
  induction l with
  | nil => simp [lastHit]
  | cons st rest ih =>
    cases hlr : lastHit p rest with
    | some j =>
      simp only [lastHit, hlr]
      constructor
      · intro h; exact Option.noConfusion h
      · intro hall
        have hnone : lastHit p rest = none :=
          ih.mpr (fun x hx => hall x (List.mem_cons_of_mem _ hx))
        rw [hlr] at hnone
        exact Option.noConfusion hnone
    | none =>
      by_cases hp : p st <;> simp [lastHit, hlr, hp, ← ih]

/-- Helper: `lastHit p l = some f` means: the element at `f` satisfies `p` and no
later element does. -/
theorem lastHit_bounds {p : StopTime → Bool} {l : List StopTime} {f : Nat}
    (h : lastHit p l = some f) :
    (l[f]?).any p = true ∧ ∀ j, f < j → (l[j]?).any p = false := by
  induction l generalizing f with
  | nil => simp [lastHit] at h
  | cons st rest ih =>
    cases hlr : lastHit p rest with
    | some j =>
      simp [lastHit, hlr] at h
      subst h
      rcases ih hlr with ⟨h1, h2⟩
      refine ⟨by simpa using h1, ?_⟩
      intro k hk
      cases k with
      | zero => omega
      | succ k' => simpa using h2 k' (by omega)
    | none =>
      have hall : ∀ st ∈ rest, p st = false := (lastHit_none_iff p rest).mp hlr
      by_cases hp : p st
      · simp [lastHit, hlr, hp] at h
        subst h
        refine ⟨by simp [Option.any, hp], ?_⟩
        intro k hk
        cases k with
        | zero => omega
        | succ k' => simpa using any_false_of_all_false hall k'
      · simp [lastHit, hlr, hp] at h

/-- A `lastHit` index is in range. -/
theorem lastHit_lt_length {p : StopTime → Bool} {l : List StopTime} {f : Nat}
    (h : lastHit p l = some f) : f < l.length := by
  rcases lastHit_bounds h with ⟨h1, -⟩
  cases hx : l[f]? with
  | none => simp [hx, Option.any] at h1
  | some x => exact (List.getElem?_eq_some.mp hx).1

/-- Converse of `lastHit_bounds`. -/
theorem lastHit_intro {p : StopTime → Bool} {l : List StopTime} {f : Nat}
    (h1 : (l[f]?).any p = true) (h2 : ∀ j, f < j → (l[j]?).any p = false) :
    lastHit p l = some f := by
  induction l generalizing f with
  | nil => simp [Option.any] at h1
  | cons st rest ih =>
    cases hlr : lastHit p rest with
    | some j =>
      rcases lastHit_bounds hlr with ⟨hj1, hj2⟩
      have hfj : f = j + 1 := by
        rcases Nat.lt_or_ge f (j + 1) with hlt | hge
        · exfalso
          have hc := h2 (j + 1) (by omega)
          rw [List.getElem?_cons_succ] at hc
          rw [hc] at hj1
          simp at hj1
        · rcases Nat.eq_or_lt_of_le hge with heq | hgt
          · omega
          · exfalso
            obtain ⟨f', rfl⟩ : ∃ f', f = f' + 1 := ⟨f - 1, by omega⟩
            have hb : (rest[f']?).any p = true := by simpa using h1
            rw [hj2 f' (by omega)] at hb
            simp at hb
      subst hfj
      simp [lastHit, hlr]
    | none =>
      have hall : ∀ st ∈ rest, p st = false := (lastHit_none_iff p rest).mp hlr
      cases f with
      | zero =>
        have hp : p st = true := by simpa [Option.any] using h1
        simp [lastHit, hlr, hp]
      | succ f' =>
        have hb : (rest[f']?).any p = true := by simpa using h1
        rw [any_false_of_all_false hall f'] at hb
        simp at hb

/-- Whether a fallible computation succeeded. -/
def Except.isOk {ε α : Type} : Except ε α → Bool
  | .ok _ => true
  | .error _ => false

/-! ## Claim theorems -/

/-- C10: whenever `Leg.num_stops` returns a value without raising, that value
is nonnegative: the scan breaks at the first occurrence of `to_stop`, so any
recorded `from_stop` index is at most the `to_stop` index. -/
theorem num_stops_nonneg (leg : Leg) (v : Int) (h : leg.num_stops = .ok v) :
    0 ≤ v := by
  cases htr : leg.trip with
  | none =>
    unfold Leg.num_stops at h
    rw [htr] at h
    simp at h
    omega
  | some tr =>
    cases hr : leg.is_route with
    | false =>
      unfold Leg.num_stops at h
      rw [htr] at h
      simp [hr] at h
      omega
    | true =>
      rw [num_stops_eq leg tr htr hr] at h
      cases hft : firstHit (stopHit leg.to_stop) tr.stop_times with
      | none => rw [hft] at h; simp at h
      | some t =>
        rw [hft] at h
        simp only at h
        cases hlt : lastHit (stopHit leg.from_stop) (tr.stop_times.take (t + 1)) with
        | none => rw [hlt] at h; simp at h
        | some f =>
          rw [hlt] at h
          simp only [Except.ok.injEq] at h
          have hlen := lastHit_lt_length hlt
          rw [List.length_take] at hlen
          have hf : f ≤ t := by omega
          omega

/-- C10 witness: at the concrete leg `legAB`, `num_stops` returns `ok 1` and
the theorem yields its nonnegativity. -/
theorem num_stops_nonneg_witness : (0 : Int) ≤ 1 :=
  num_stops_nonneg legAB 1 (by decide)

/-- C4: `Leg.num_stops` returns 0 whenever the leg is a WALK leg or its trip
is absent; for a ROUTE leg with a trip it fails exactly when `to_stop` has no
occurrence in the trip's stop times, or `from_stop` has no occurrence among
the entries up to and including the first occurrence of `to_stop` (the scan's
stopping point). -/
theorem num_stops_walk_zero_and_error_iff (leg : Leg) :
    ((leg.trip = none ∨ leg.is_walk = true) → leg.num_stops = .ok 0) ∧
    (∀ tr : Trip, leg.trip = some tr → leg.is_route = true →
      ((leg.num_stops.isOk = false) ↔
        ((∀ st ∈ tr.stop_times, stopHit leg.to_stop st = false) ∨
         (∃ t, ((tr.stop_times[t]?).any (stopHit leg.to_stop) = true ∧
                ∀ j < t, (tr.stop_times[j]?).any (stopHit leg.to_stop) = false) ∧
               ∀ st ∈ tr.stop_times.take (t + 1),
                 stopHit leg.from_stop st = false)))) := by
  constructor
  · intro h
    rcases h with htr | hwalk
    · unfold Leg.num_stops
      rw [htr]
    · have hty : leg.type = LegType.WALK := by
        simpa [Leg.is_walk] using hwalk
      have hr : leg.is_route = false := by simp [Leg.is_route, hty]
      unfold Leg.num_stops
      cases htr : leg.trip with
      | none => rfl
      | some tr => simp [hr]
  · intro tr htr hr
    rw [num_stops_eq leg tr htr hr]
    cases hft : firstHit (stopHit leg.to_stop) tr.stop_times with
    | none =>
      simp only [Except.isOk]
      constructor
      · intro _
        exact Or.inl ((firstHit_none_iff _ _).mp hft)
      · intro _; rfl
    | some t =>
      simp only
      cases hlt : lastHit (stopHit leg.from_stop) (tr.stop_times.take (t + 1)) with
      | none =>
        simp only [Except.isOk]
        constructor
        · intro _
          rcases firstHit_bounds hft with ⟨h1, h2⟩
          exact Or.inr ⟨t, ⟨h1, h2⟩, (lastHit_none_iff _ _).mp hlt⟩
        · intro _; rfl
      | some f =>
        simp only [Except.isOk]
        constructor
        · intro hcontra; exact Bool.noConfusion hcontra
        · intro hrhs
          exfalso
          rcases hrhs with hall | ⟨t', ⟨h1, h2⟩, hfall⟩
          · rw [(firstHit_none_iff _ _).mpr hall] at hft
            exact Option.noConfusion hft
          · have : firstHit (stopHit leg.to_stop) tr.stop_times = some t' :=
              firstHit_intro h1 h2
            rw [hft] at this
            have htt : t' = t := by
              have := Option.some.inj this
              omega
            subst htt
            rw [(lastHit_none_iff _ _).mpr hfall] at hlt
            exact Option.noConfusion hlt

/-- C4 witness: the walk leg yields 0, and on the straight trip A→B the
error condition is decidably false, matching the successful lookup. -/
theorem num_stops_walk_zero_and_error_iff_witness :
    legWalk.num_stops = .ok 0 :=
  (num_stops_walk_zero_and_error_iff legWalk).1 (Or.inr (by decide))

/-- C1 counterexample: on the looped trip with stop times A, B, A, C, a route
leg from A to C gets `num_stops = 1` from the source (the scan keeps
overwriting the recorded `from_stop` index, so the LAST occurrence of A
before C is used), while the claim's first-occurrence formula yields 3. -/
theorem num_stops_first_occurrence_counterexample :
    legLoop.num_stops = .ok 1 ∧ numStopsSpecFirst legLoop = .ok 3 ∧
      (Except.ok (1 : Int) : Except String Int) ≠ .ok 3 :=
  ⟨by decide, by decide, by decide⟩

/-- C1 (amended): for a ROUTE leg with a trip, `num_stops` equals (index of
the first occurrence of `to_stop`) minus (index of the LAST occurrence of
`from_stop` at or before the first occurrence of `to_stop`); scanning still
stops immediately at the first stop time equal to `to_stop`. -/
theorem num_stops_last_from_occurrence (leg : Leg) (tr : Trip) (t f : Nat)
    (htr : leg.trip = some tr) (hr : leg.is_route = true)
    (ht1 : (tr.stop_times[t]?).any (stopHit leg.to_stop) = true)
    (ht2 : ∀ j < t, (tr.stop_times[j]?).any (stopHit leg.to_stop) = false)
    (hf1 : (tr.stop_times[f]?).any (stopHit leg.from_stop) = true)
    (hfle : f ≤ t)
    (hf2 : ∀ j, f < j → j ≤ t →
      (tr.stop_times[j]?).any (stopHit leg.from_stop) = false) :
    leg.num_stops = .ok ((t : Int) - (f : Int)) := by
  have hlast : lastHit (stopHit leg.from_stop) (tr.stop_times.take (t + 1)) = some f := by
    apply lastHit_intro
    · rw [List.getElem?_take_of_lt (by omega)]
      exact hf1
    · intro j hj
      by_cases hjt : j < t + 1
      · rw [List.getElem?_take_of_lt hjt]
        exact hf2 j hj (by omega)
      · rw [List.getElem?_eq_none (by rw [List.length_take]; omega)]
        rfl
  rw [num_stops_eq leg tr htr hr, firstHit_intro ht1 ht2]
  simp only
  rw [hlast]

/-- C1 witness: on the looped trip the first occurrence of C is at index 3
and the last occurrence of A at or before it is at index 2, and `num_stops`
is 3 - 2 = 1. -/
theorem num_stops_last_from_occurrence_witness :
    legLoop.num_stops = .ok ((3 : Int) - (2 : Int)) :=
  num_stops_last_from_occurrence legLoop tripLoop 3 2 rfl rfl (by decide)
    (by decide) (by decide) (by decide)
    (by
      intro j h1 h2
      have hj : j = 3 := by omega
      subst hj
      decide)

/-- C2: `Leg.duration` is the seconds component of the timedelta
`arrival_time - departure_time`, i.e. the sub-day remainder — it is an exact
decomposition `delta = 86400 * k + duration` with `0 ≤ duration < 86400`, and
it is NOT the total elapsed seconds whenever the delta spans one day or more;
`Connection.duration` has the same semantics over its first leg's departure
and its last leg's arrival. -/
theorem duration_seconds_component :
    (∀ leg : Leg, ∃ k : Int,
        leg.arrival_time - leg.departure_time = 86400 * k + leg.duration ∧
        0 ≤ leg.duration ∧ leg.duration < 86400 ∧
        (86400 ≤ leg.arrival_time - leg.departure_time →
          leg.duration ≠ leg.arrival_time - leg.departure_time)) ∧
    (∀ (c : Connection) (dep arr d : Int),
        c.departure_time = some dep → c.arrival_time = some arr →
        c.duration = some d →
        ∃ k : Int, arr - dep = 86400 * k + d ∧ 0 ≤ d ∧ d < 86400 ∧
          (86400 ≤ arr - dep → d ≠ arr - dep)) := by
  have key : ∀ delta : Int, ∃ k : Int,
      delta = 86400 * k + delta % 86400 ∧ 0 ≤ delta % 86400 ∧
      delta % 86400 < 86400 ∧ (86400 ≤ delta → delta % 86400 ≠ delta) := by
    intro delta
    refine ⟨delta / 86400, ?_, ?_, ?_, ?_⟩
    · have := Int.ediv_add_emod delta 86400
      omega
    · exact Int.emod_nonneg delta (by norm_num)
    · exact Int.emod_lt_of_pos delta (by norm_num)
    · intro hge heq
      have := Int.emod_lt_of_pos delta (show (0 : Int) < 86400 by norm_num)
      omega
  constructor
  · intro leg
    exact key (leg.arrival_time - leg.departure_time)
  · intro c dep arr d hdep harr hdur
    unfold Connection.duration at hdur
    rw [hdep, harr] at hdur
    simp only at hdur
    obtain rfl := Option.some.inj hdur
    exact key (arr - dep)

/-- C2 witness: the single-leg connection departing at 0 and arriving at
90000 has duration 3600 (not 90000), decomposing as 90000 = 86400 + 3600. -/
theorem duration_seconds_component_witness :
    ∃ k : Int, (90000 : Int) - 0 = 86400 * k + 3600 ∧ (0 : Int) ≤ 3600 ∧
      (3600 : Int) < 86400 ∧ ((86400 : Int) ≤ 90000 - 0 → (3600 : Int) ≠ 90000 - 0) :=
  duration_seconds_component.2 connAB 0 90000 3600 rfl rfl (by decide)

/-- C9: for every leg and every connection, the duration is an integer in
the range [0, 86400), regardless of whether the arrival time is before or
after the departure time. -/
theorem duration_range :
    (∀ leg : Leg, 0 ≤ leg.duration ∧ leg.duration < 86400) ∧
    (∀ (c : Connection) (d : Int), c.duration = some d → 0 ≤ d ∧ d < 86400) := by
  constructor
  · intro leg
    exact ⟨Int.emod_nonneg _ (by norm_num), Int.emod_lt_of_pos _ (by norm_num)⟩
  · intro c d hdur
    unfold Connection.duration at hdur
    cases hdep : c.departure_time with
    | none => rw [hdep] at hdur; simp at hdur
    | some dep =>
      cases harr : c.arrival_time with
      | none => rw [hdep, harr] at hdur; simp at hdur
      | some arr =>
        rw [hdep, harr] at hdur
        simp only at hdur
        obtain rfl := Option.some.inj hdur
        exact ⟨Int.emod_nonneg _ (by norm_num), Int.emod_lt_of_pos _ (by norm_num)⟩

/-- C9 witness: the concrete connection spanning more than a day has its
duration 3600 inside the range, via the theorem. -/
theorem duration_range_witness : (0 : Int) ≤ 3600 ∧ (3600 : Int) < 86400 :=
  duration_range.2 connAB 3600 (by decide)

/-- A leg whose arrival time precedes its departure time (negative delta). -/
def legBack : Leg :=
  ⟨coord0, none, coord0, none, LegType.WALK, 100, 40, none⟩

example : legBack.duration = 86340 := by decide

/-- C3: constructing a Connection from an empty leg sequence fails with a
validation error, and from any non-empty leg sequence succeeds with the legs
unchanged. -/
theorem connection_legs_validation :
    ((mkConnection []).isOk = false) ∧
    (∀ legs : List Leg, legs ≠ [] → mkConnection legs = .ok ⟨legs⟩) := by
  constructor
  · rfl
  · intro legs h
    unfold mkConnection
    rw [if_neg h]

/-- C3 witness: a one-leg list is accepted unchanged. -/
theorem connection_legs_validation_witness :
    mkConnection [legWalk] = .ok ⟨[legWalk]⟩ :=
  connection_legs_validation.2 [legWalk] (by simp)

/-- C5: `num_transfers` is the number of route legs minus one; a connection
with zero route legs yields -1, not 0. -/
theorem num_transfers_route_count_minus_one :
    (∀ c : Connection, c.num_transfers =
      ((c.legs.filter fun l => l.is_route).length : Int) - 1) ∧
    (∀ c : Connection, (∀ l ∈ c.legs, l.is_route = false) →
      c.num_transfers = -1) := by
  constructor
  · intro c
    unfold Connection.num_transfers
    rw [List.countP_eq_length_filter]
  · intro c h
    unfold Connection.num_transfers
    have hz : c.legs.countP (fun l => l.is_route) = 0 := by
      rw [List.countP_eq_zero]
      intro l hl
      simp [h l hl]
    rw [hz]
    decide

/-- C5 witness: the walk-only connection has -1 transfers. -/
theorem num_transfers_route_count_minus_one_witness :
    connWalk.num_transfers = -1 :=
  num_transfers_route_count_minus_one.2 connWalk (by decide)

/-- Counting adjacent pairs through zip-with-tail (the embedding of
`itertools.pairwise`) equals counting the indices `i` at which both the
`i`-th and the `(i+1)`-th leg satisfy the pair predicate. -/
theorem pairwise_count_eq (l : List Leg) :
    (pairwiseList l).countP (fun p => p.1.is_route && p.2.is_route) =
      (List.range (l.length - 1)).countP (fun i =>
        ((l[i]?).any fun x => x.is_route) && ((l[i + 1]?).any fun x => x.is_route)) := by
  induction l with
  | nil => rfl
  | cons a rest ih =>
    cases rest with
    | nil => rfl
    | cons b rest' =>
      simp only [pairwiseList, List.tail_cons, List.zip_cons_cons, List.countP_cons] at ih ⊢
      rw [show (a :: b :: rest').length - 1 = ((b :: rest').length - 1) + 1 by
        simp]
      rw [List.range_succ_eq_map, List.countP_cons, List.countP_map]
      simp only [Function.comp_def, Nat.succ_eq_add_one, List.getElem?_cons_succ,
        List.getElem?_cons_zero, Option.any_some]
      simp only [List.getElem?_cons_succ] at ih
      rw [ih]

/-- C6: `num_same_station_transfers` counts the adjacent leg pairs in which
both legs are route legs; on the leg pattern [ROUTE, ROUTE, WALK, ROUTE] it
equals 1. -/
theorem num_same_station_transfers_counts_adjacent_route_pairs :
    (∀ c : Connection, c.num_same_station_transfers =
      (((List.range (c.legs.length - 1)).countP (fun i =>
        ((c.legs[i]?).any fun x => x.is_route) &&
        ((c.legs[i + 1]?).any fun x => x.is_route))) : Int)) ∧
    connRRWR.num_same_station_transfers = 1 := by
  constructor
  · intro c
    unfold Connection.num_same_station_transfers
    rw [pairwise_count_eq]
  · decide

/-- The element returned by `find?` sits at an index before which no element
satisfies the predicate. -/
theorem find?_first_index {α : Type} (p : α → Bool) (l : List α) (x : α)
    (h : l.find? p = some x) :
    ∃ i : Nat, l[i]? = some x ∧ p x = true ∧
      ∀ j : Nat, j < i → (l[j]?).any p = false := by
  induction l with
  | nil => simp at h
  | cons a rest ih =>
    by_cases hp : p a
    · rw [List.find?_cons_of_pos _ hp] at h
      obtain rfl := Option.some.inj h
      exact ⟨0, by simp, hp, fun j hj => absurd hj (Nat.not_lt_zero j)⟩
    · rw [List.find?_cons_of_neg _ hp] at h
      rcases ih h with ⟨i, h1, h2, h3⟩
      refine ⟨i + 1, by simpa using h1, h2, ?_⟩
      intro j hj
      cases j with
      | zero => simp [Option.any, hp]
      | succ j' => simpa using h3 j' (by omega)

/-- The element returned by `find?` on the reversed list sits at an index
after which no element satisfies the predicate. -/
theorem reverse_find?_last_index {α : Type} (p : α → Bool) (l : List α) (x : α)
    (h : l.reverse.find? p = some x) :
    ∃ k : Nat, l[k]? = some x ∧ p x = true ∧
      ∀ j : Nat, k < j → (l[j]?).any p = false := by
  rcases find?_first_index p l.reverse x h with ⟨i, h1, h2, h3⟩
  have hi : i < l.length := by
    rcases List.getElem?_eq_some.mp h1 with ⟨hlt, -⟩
    simpa using hlt
  refine ⟨l.length - 1 - i, ?_, h2, ?_⟩
  · rw [← List.getElem?_reverse (by simpa using hi)]
    exact h1
  · intro j hj
    by_cases hjl : j < l.length
    · have hji : l.length - 1 - j < i := by omega
      have hz := h3 (l.length - 1 - j) hji
      rw [List.getElem?_reverse (by simpa using (show l.length - 1 - j < l.length by omega))] at hz
      rw [show l.length - 1 - (l.length - 1 - j) = j by omega] at hz
      exact hz
    · rw [List.getElem?_eq_none (by omega)]
      rfl

/-- C7: a connection whose legs are all walking legs has no first/last route
leg and no first/last stop; a connection with at least one route leg has a
first (resp. last) route leg — the route leg before (resp. after) which no
route leg occurs — and its `first_stop`/`last_stop` are that leg's
`from_stop`/`to_stop`. -/
theorem route_leg_stop_endpoints :
    (∀ c : Connection, (∀ l ∈ c.legs, l.is_route = false) →
      c.first_route_leg = none ∧ c.last_route_leg = none ∧
      c.first_stop = none ∧ c.last_stop = none) ∧
    (∀ c : Connection, (∃ l ∈ c.legs, l.is_route = true) →
      (∃ (i : Nat) (fl : Leg), c.legs[i]? = some fl ∧ fl.is_route = true ∧
        (∀ j : Nat, j < i → ((c.legs[j]?).any fun x => x.is_route) = false) ∧
        c.first_route_leg = some fl ∧ c.first_stop = fl.from_stop) ∧
      (∃ (k : Nat) (ll : Leg), c.legs[k]? = some ll ∧ ll.is_route = true ∧
        (∀ j : Nat, k < j → ((c.legs[j]?).any fun x => x.is_route) = false) ∧
        c.last_route_leg = some ll ∧ c.last_stop = ll.to_stop)) := by
  constructor
  · intro c h
    have h1 : c.first_route_leg = none := by
      unfold Connection.first_route_leg
      rw [List.find?_eq_none]
      intro x hx
      simp [h x hx]
    have h2 : c.last_route_leg = none := by
      unfold Connection.last_route_leg
      rw [List.find?_eq_none]
      intro x hx
      simp [h x (List.mem_reverse.mp hx)]
    refine ⟨h1, h2, ?_, ?_⟩
    · unfold Connection.first_stop
      rw [h1]
      rfl
    · unfold Connection.last_stop
      rw [h2]
      rfl
  · intro c h
    rcases h with ⟨l0, hl0, hp0⟩
    constructor
    · have hsome : (c.legs.find? fun x => x.is_route).isSome :=
        List.find?_isSome.mpr ⟨l0, hl0, hp0⟩
      rcases Option.isSome_iff_exists.mp hsome with ⟨fl, hfl⟩
      rcases find?_first_index _ _ _ hfl with ⟨i, hi1, hi2, hi3⟩
      refine ⟨i, fl, hi1, hi2, hi3, hfl, ?_⟩
      unfold Connection.first_stop Connection.first_route_leg
      rw [hfl]
      rfl
    · have hsome : (c.legs.reverse.find? fun x => x.is_route).isSome :=
        List.find?_isSome.mpr ⟨l0, List.mem_reverse.mpr hl0, hp0⟩
      rcases Option.isSome_iff_exists.mp hsome with ⟨ll, hll⟩
      rcases reverse_find?_last_index _ _ _ hll with ⟨k, hk1, hk2, hk3⟩
      refine ⟨k, ll, hk1, hk2, hk3, hll, ?_⟩
      unfold Connection.last_stop Connection.last_route_leg
      rw [hll]
      rfl

/-- C7 witness: the walk-only connection has no route legs and all four
accessors are none. -/
theorem route_leg_stop_endpoints_witness :
    connWalk.first_route_leg = none ∧ connWalk.last_route_leg = none ∧
      connWalk.first_stop = none ∧ connWalk.last_stop = none :=
  route_leg_stop_endpoints.1 connWalk (by decide)

/-- C8 counterexample: a Trip payload with the stopTimes field absent fails
with a missing-field validation error rather than yielding an empty
sequence. -/
theorem trip_absent_stop_times_fails :
    mkTrip "loop" routeR none false false = .error "Field required" := rfl

/-- C8 (amended): a present-but-null stopTimes value normalizes to the empty
sequence and a present list is kept unchanged, but an ABSENT stopTimes field
fails with a missing-field validation error. -/
theorem trip_stop_times_normalization :
    (∀ (hs : String) (r : Route) (b w : Bool),
      mkTrip hs r (some none) b w = .ok ⟨hs, r, [], b, w⟩) ∧
    (∀ (hs : String) (r : Route) (b w : Bool) (l : List StopTime),
      mkTrip hs r (some (some l)) b w = .ok ⟨hs, r, l, b, w⟩) ∧
    (∀ (hs : String) (r : Route) (b w : Bool),
      (mkTrip hs r none b w).isOk = false) :=
  ⟨fun _ _ _ _ => rfl, fun _ _ _ _ _ => rfl, fun _ _ _ _ => rfl⟩

end PTC
